import Mathlib

/-!
Shallow embedding of the `emoji-logger` formatting callback
(`formatted_builder` in `src/lib.rs`) and proofs about its behavior:
the level → (color, tag) table, the target → label derivation, the
adaptive column-width state machine held in the two atomics
`MAX_MODULE_WIDTH` / `SINCE_WIDTH_INCREASE`, label padding, multi-line
message re-indentation, and error propagation from the sink write.
-/

namespace EmojiLogger

/-- Log levels of the `log` crate, as matched at `src/lib.rs:121-127`. -/
inductive Level where
  | Trace
  | Debug
  | Info
  | Warn
  | Error
deriving DecidableEq, Repr, Fintype

/-- Terminal colors of `ansi_term::Color` used by the formatter. -/
inductive Color where
  | Black
  | Red
  | Green
  | Yellow
  | Blue
  | Purple
  | White
deriving DecidableEq, Repr

/-- Level → (color, rendered tag) table, embedding the `match record.level()`
at `src/lib.rs:121-127`. -/
def levelStyle : Level → Color × String
  | Level.Trace => (Color.Purple, " 🤓 T ")
  | Level.Debug => (Color.Blue, " 🤔 D ")
  | Level.Info => (Color.Green, " 😋 I ")
  | Level.Warn => (Color.Yellow, " 😥 W ")
  | Level.Error => (Color.Red, " 😡 E ")

/-- Splitting a character list on the separator `"::"`, embedding Rust's
`target.split("::")` at `src/lib.rs:129` (non-overlapping occurrences of the
two-character separator, scanned left to right; always at least one segment). -/
def splitSep : List Char → List (List Char)
  | [] => [[]]
  | ':' :: ':' :: rest => [] :: splitSep rest
  | c :: rest =>
    match splitSep rest with
    | [] => [[c]]
    | h :: t => (c :: h) :: t

/-- Label derivation from the target path, embedding `src/lib.rs:129-136`:
`krate` is the first segment (`module_iter.next()`), `path` is the last of
the remaining segments (`module_iter.last()`), and the label is
`format!(" {}{} ", krate.unwrap_or_default(), path.map(|s| format!(":{}", s)).unwrap_or_default())`. -/
def mkLabel (target : String) : String :=
  let segs := splitSep target.data
  let krate := segs.head?
  let path := (segs.tail).getLast?
  String.mk
    (' ' :: (krate.getD []) ++
      (match path with
        | some p => ':' :: p
        | none => []) ++ [' '])

/-- The adaptive-width shared state: the two `AtomicUsize` statics
`MAX_MODULE_WIDTH` and `SINCE_WIDTH_INCREASE` (`src/lib.rs:35-36`). -/
structure WidthState where
  max_width : Nat
  since_increase : Nat
deriving DecidableEq, Repr

/-- Initial state: both atomics start at `ATOMIC_USIZE_INIT` (zero). -/
def initWidthState : WidthState := ⟨0, 0⟩

/-- One sequential execution of the width update at `src/lib.rs:138-147`:
increment `SINCE_WIDTH_INCREASE`, then grow (`max_width <= len`: store `len`,
reset the counter to 0) or shrink (counter read after the increment exceeds 5:
store `len`, counter untouched) or leave `max_width` alone.  `len` is the
value of `target.len()` on the derived label. -/
def widthUpdate (s : WidthState) (len : Nat) : WidthState :=
  let since := s.since_increase + 1
  if s.max_width ≤ len then
    ⟨len, 0⟩
  else if since > 5 then
    ⟨len, since⟩
  else
    ⟨s.max_width, since⟩

/-- Folding the width update over a sequence of label lengths: the state after
a run of sequential calls whose labels have the given lengths. -/
def runWidths (lens : List Nat) : WidthState :=
  lens.foldl widthUpdate initWidthState

/-- Style data of `ansi_term::Style` as built by the formatter: optional
foreground, optional background, bold and dimmed flags. -/
structure Style where
  foreground : Option Color
  background : Option Color
  bold : Bool
  dimmed : Bool
deriving DecidableEq, Repr

/-- ANSI parameter of a color when used as foreground. -/
def Color.fgCode : Color → Nat
  | Color.Black => 30
  | Color.Red => 31
  | Color.Green => 32
  | Color.Yellow => 33
  | Color.Blue => 34
  | Color.Purple => 35
  | Color.White => 37

/-- Modelled from the spec: the terminal styling capability of the external
`ansi_term` crate ("apply foreground/background/bold/dim styling to a text
span for a given abstract color"), rendered as an ANSI escape marker around
the text, closed by a reset marker. -/
def paint (st : Style) (text : String) : String :=
  let codes :=
    (if st.bold then ["1"] else []) ++
    (if st.dimmed then ["2"] else []) ++
    (match st.background with
      | some c => [toString (c.fgCode + 10)]
      | none => []) ++
    (match st.foreground with
      | some c => [toString c.fgCode]
      | none => [])
  "\x1b[" ++ String.intercalate ";" codes ++ "m" ++ text ++ "\x1b[0m"

/-- Style of the leading level tag: `Style::new().on(color).fg(Color::Black)`
(`src/lib.rs:152`). -/
def tagStyle (c : Color) : Style := ⟨some Color.Black, some c, false, false⟩

/-- Style of the elapsed badge:
`Style::new().on(Color::White).fg(Color::Black).dimmed().bold()`
(`src/lib.rs:153-157`). -/
def badgeStyle : Style := ⟨some Color.Black, some Color.White, true, true⟩

/-- Style of the padded label: `Style::new().bold()` (`src/lib.rs:162-163`). -/
def labelStyle : Style := ⟨none, none, true, false⟩

/-- Style of the level tag repeated on continuation lines:
`Style::new().on(color).fg(Color::White)` (`src/lib.rs:169`). -/
def contStyle (c : Color) : Style := ⟨some Color.White, some c, false, false⟩

/-- Replacement of every `'\n'` in a character list by a replacement list,
embedding Rust's `str::replace("\n", rep)` at `src/lib.rs:165-171`
(the replacement text is pasted, not rescanned). -/
def replaceNL (rep : List Char) : List Char → List Char
  | [] => []
  | c :: rest =>
    if c = '\n' then rep ++ replaceNL rep rest
    else c :: replaceNL rep rest

/-- The message as written: `format!("{}", record.args())` with every line
break replaced by a line break, the level tag restyled with the level color
as background and white foreground, and a single space (`src/lib.rs:165-171`). -/
def formatMessage (color : Color) (levelTag : String) (msg : String) : String :=
  String.mk (replaceNL ("\n" ++ paint (contStyle color) levelTag ++ " ").data msg.data)

/-- Splitting a character list at every `'\n'`, used to state that the
replacement keeps every piece of the message. -/
def splitNL : List Char → List (List Char)
  | [] => [[]]
  | c :: rest =>
    if c = '\n' then [] :: splitNL rest
    else
      match splitNL rest with
      | [] => [[c]]
      | h :: t => (c :: h) :: t

/-- Joining a list of pieces with a separator pasted between consecutive
pieces, used to state that the newline replacement keeps every piece of the
message in order. -/
def joinSep (sep : List Char) : List (List Char) → List Char
  | [] => []
  | [x] => x
  | x :: y :: t => x ++ sep ++ joinSep sep (y :: t)

/-- Right-padding with spaces to a target width counted in characters,
embedding `format!("{: <width$}", target, width = max_width)`
(`src/lib.rs:164`): no truncation, no padding when already wide enough. -/
def padLabel (label : String) (width : Nat) : String :=
  label ++ String.mk (List.replicate (width - label.length) ' ')

/-- One structured log record as seen by the format closure: level, target
path, message (`record.level()`, `record.target()`, `record.args()`). -/
structure Record where
  level : Level
  target : String
  message : String

/-- The line written by one call of the format closure together with the
width state it leaves behind, embedding `src/lib.rs:116-173`.  `elapsed` is
the `{:.2}` rendering of the elapsed-time float, taken as an input because
the clock is ambient; the surrounding spaces of the badge belong to the
format string and are kept here. -/
def renderLine (st : WidthState) (elapsed : String) (r : Record) :
    String × WidthState :=
  let cl := levelStyle r.level
  let label := mkLabel r.target
  let st' := widthUpdate st label.utf8ByteSize
  let line :=
    paint (tagStyle cl.1) cl.2 ++
    paint badgeStyle (" " ++ elapsed ++ " ") ++
    paint labelStyle (padLabel label st'.max_width) ++
    "> " ++
    formatMessage cl.1 cl.2 r.message ++
    "\n"
  (line, st')

/-- The full format closure: update the shared width state, build the line,
and return the result of the single `writeln!` to the sink (`src/lib.rs:149-172`).
The first component is the state left in the two atomics, the second the
value returned to the caller. -/
def render (ε : Type) (sink : String → Except ε Unit) (st : WidthState)
    (elapsed : String) (r : Record) : WidthState × Except ε Unit :=
  ((renderLine st elapsed r).2, sink (renderLine st elapsed r).1)

/-! Helper lemmas. -/

theorem splitNL_ne_nil (l : List Char) : splitNL l ≠ [] := by
  cases l with
  | nil => simp [splitNL]
  | cons c rest =>
    simp only [splitNL]
    split
    · simp
    · split <;> simp

theorem replaceNL_joinSep (rep l : List Char) :
    replaceNL rep l = joinSep rep (splitNL l) := by
  induction l with
  | nil => rfl
  | cons c rest ih =>
    by_cases hc : c = '\n'
    · subst hc
      simp only [replaceNL, if_pos rfl, splitNL, ih]
      cases hs : splitNL rest with
      | nil => exact absurd hs (splitNL_ne_nil rest)
      | cons h t => cases t <;> simp [joinSep]
    · simp only [replaceNL, if_neg hc, splitNL, ih]
      cases hs : splitNL rest with
      | nil => exact absurd hs (splitNL_ne_nil rest)
      | cons h t =>
        cases t with
        | nil => simp [joinSep]
        | cons y t => simp [joinSep]

theorem replaceNL_of_not_mem (rep m : List Char) (h : '\n' ∉ m) :
    replaceNL rep m = m := by
  induction m with
  | nil => rfl
  | cons c rest ih =>
    have hc : c ≠ '\n' := fun hc => h (hc ▸ List.mem_cons_self c rest)
    have hr : '\n' ∉ rest := fun hr => h (List.mem_cons_of_mem c hr)
    simp [replaceNL, if_neg hc, ih hr]

theorem replaceNL_append_nl (rep m1 m2 : List Char) (h : '\n' ∉ m1) :
    replaceNL rep (m1 ++ '\n' :: m2) = m1 ++ rep ++ replaceNL rep m2 := by
  induction m1 with
  | nil => simp [replaceNL]
  | cons c rest ih =>
    have hc : c ≠ '\n' := fun hc => h (hc ▸ List.mem_cons_self c rest)
    have hr : '\n' ∉ rest := fun hr => h (List.mem_cons_of_mem c hr)
    simp [replaceNL, if_neg hc, ih hr]

theorem le_widthUpdate_max_width (s : WidthState) (len : Nat) :
    len ≤ (widthUpdate s len).max_width := by
  by_cases h1 : s.max_width ≤ len
  · simp [widthUpdate, h1]
  · by_cases h2 : s.since_increase + 1 > 5
    · simp [widthUpdate, h1, h2]
    · simp [widthUpdate, h1, h2]
      omega

theorem length_le_utf8ByteSize (s : String) : s.length ≤ s.utf8ByteSize := by
  cases s with
  | mk data =>
    rw [String.utf8ByteSize_mk]
    show data.length ≤ String.utf8Len data
    induction data with
    | nil => simp
    | cons c cs ih =>
      have := Char.utf8Size_pos c
      simp only [String.utf8Len_cons, List.length_cons]
      omega

theorem le_padLabel_length (label : String) (width : Nat) :
    label.length ≤ (padLabel label width).length := by
  rw [padLabel, String.length_append]
  exact Nat.le_add_right _ _

theorem data_mk (l : List Char) : (String.mk l).data = l := rfl

/-! Claim theorems. -/

/-- C1.  Width growth: from the initial adaptive-width state, processing seven
records whose labels have lengths `[3, 3, 3, 3, 3, 3, 10]` leaves
`max_width = 10` and `since_increase = 0`; and whenever a call's label length
satisfies `len ≥ max_width`, that call stores `len` into `max_width` and
resets `since_increase` to 0. -/
theorem width_growth :
    runWidths [3, 3, 3, 3, 3, 3, 10] = ⟨10, 0⟩ ∧
    ∀ (s : WidthState) (len : Nat), s.max_width ≤ len →
      widthUpdate s len = ⟨len, 0⟩ :=
  ⟨by decide, fun s len h => by simp [widthUpdate, h]⟩

/-- Witness for C1: the growth branch of `widthUpdate` at a concrete state. -/
theorem width_growth_witness :
    (⟨5, 2⟩ : WidthState).max_width ≤ 7 ∧
      widthUpdate ⟨5, 2⟩ 7 = ⟨7, 0⟩ :=
  ⟨by decide, width_growth.2 ⟨5, 2⟩ 7 (by decide)⟩

/-- C2.  Width shrink: from the initial state, one label of length 10 followed
by six labels of length 3 ends with `max_width = 3` and `since_increase = 6`
(the shrink on the 6th subsequent call stored the current length but did not
reset the counter); and in general, when the grow test fails and the
incremented counter exceeds 5, the call stores `len` into `max_width` and
leaves `since_increase` at its incremented value. -/
theorem width_shrink :
    runWidths [10, 3, 3, 3, 3, 3, 3] = ⟨3, 6⟩ ∧
    ∀ (s : WidthState) (len : Nat), ¬ s.max_width ≤ len →
      5 < s.since_increase + 1 →
      widthUpdate s len = ⟨len, s.since_increase + 1⟩ :=
  ⟨by decide, fun s len h1 h2 => by simp [widthUpdate, h1, h2]⟩

/-- Witness for C2: the shrink branch of `widthUpdate` at a concrete state. -/
theorem width_shrink_witness :
    ¬ (⟨10, 5⟩ : WidthState).max_width ≤ 3 ∧ 5 < 5 + 1 ∧
      widthUpdate ⟨10, 5⟩ 3 = ⟨3, 6⟩ :=
  ⟨by decide, by decide, width_shrink.2 ⟨10, 5⟩ 3 (by decide) (by decide)⟩

/-- C9.  Repeated shrinks: once `since_increase` exceeds 5, any call whose
label is strictly shorter than the current `max_width` immediately shrinks
`max_width` to that length while the counter keeps growing (so it grows
without bound across consecutive shrinking calls); and after any call made
with the counter above 5, the counter is either reset to 0 (exactly when the
call was a growth event, `max_width ≤ len`) or is still above 5. -/
theorem repeated_shrinks :
    (∀ (s : WidthState) (len : Nat), 5 < s.since_increase →
      len < s.max_width →
      widthUpdate s len = ⟨len, s.since_increase + 1⟩ ∧
        5 < (widthUpdate s len).since_increase) ∧
    (∀ (s : WidthState) (len : Nat), 5 < s.since_increase →
      ((widthUpdate s len).since_increase = 0 ∧ s.max_width ≤ len) ∨
        5 < (widthUpdate s len).since_increase) := by
  constructor
  · intro s len h5 hlt
    have h1 : ¬ s.max_width ≤ len := by omega
    have h2 : 5 < s.since_increase + 1 := by omega
    constructor
    · simp [widthUpdate, h1, h2]
    · simp [widthUpdate, h1, h2]
  · intro s len h5
    by_cases h1 : s.max_width ≤ len
    · exact Or.inl ⟨by simp [widthUpdate, h1], h1⟩
    · right
      have h2 : 5 < s.since_increase + 1 := by omega
      simp [widthUpdate, h1, h2]

/-- Witness for C9: a shrinking call at a concrete state with the counter
above 5. -/
theorem repeated_shrinks_witness :
    5 < (⟨10, 7⟩ : WidthState).since_increase ∧ 3 < (⟨10, 7⟩ : WidthState).max_width ∧
      (widthUpdate ⟨10, 7⟩ 3 = ⟨3, 8⟩ ∧ 5 < (widthUpdate ⟨10, 7⟩ 3).since_increase) :=
  ⟨by decide, by decide, repeated_shrinks.1 ⟨10, 7⟩ 3 (by decide) (by decide)⟩

/-- C3.  Label derivation: splitting the target on `"::"`, a single-segment
target renders as `" crate "` (no colon) and a target with two or more
segments renders as `" crate:leaf "` from the first and last segments only,
with single leading and trailing spaces; intermediate segments are dropped. -/
theorem label_derivation :
    ∀ t : String,
      (∀ k : List Char, splitSep t.data = [k] →
        mkLabel t = String.mk (' ' :: k ++ [' '])) ∧
      (∀ (k l : List Char) (rest : List (List Char)),
        splitSep t.data = k :: rest → rest.getLast? = some l →
        mkLabel t = String.mk (' ' :: k ++ ':' :: l ++ [' '])) := by
  intro t
  constructor
  · intro k h
    simp [mkLabel, h]
  · intro k l rest h hl
    simp [mkLabel, h, hl]

/-- Witness for C3: the labels of `"app"` and `"app::net::http"`. -/
theorem label_derivation_witness :
    splitSep "app".data = ["app".data] ∧ mkLabel "app" = " app " ∧
      ["net".data, "http".data].getLast? = some "http".data ∧
      mkLabel "app::net::http" = " app:http " := by
  refine ⟨by decide, ?_, by decide, ?_⟩
  · rw [(label_derivation "app").1 "app".data (by decide)]
    decide
  · rw [(label_derivation "app::net::http").2 "app".data "http".data
      ["net".data, "http".data] (by decide) (by decide)]
    decide

/-- C4.  Level tag mapping: the five levels map exactly to the fixed
(color, tag) pairs of the table at `src/lib.rs:121-127`, and the mapping to
tags is injective: distinct levels never share a tag. -/
theorem level_tag_table :
    levelStyle Level.Trace = (Color.Purple, " 🤓 T ") ∧
    levelStyle Level.Debug = (Color.Blue, " 🤔 D ") ∧
    levelStyle Level.Info = (Color.Green, " 😋 I ") ∧
    levelStyle Level.Warn = (Color.Yellow, " 😥 W ") ∧
    levelStyle Level.Error = (Color.Red, " 😡 E ") ∧
    ∀ l1 l2 : Level, (levelStyle l1).2 = (levelStyle l2).2 → l1 = l2 :=
  ⟨rfl, rfl, rfl, rfl, rfl, by decide⟩

/-- Witness for C4: injectivity applied at a concrete pair of levels. -/
theorem level_tag_table_witness :
    (levelStyle Level.Info).2 = (levelStyle Level.Info).2 ∧
      Level.Info = Level.Info :=
  ⟨rfl, level_tag_table.2.2.2.2.2 Level.Info Level.Info rfl⟩

/-- C5.  Padding-width invariant: in every call, the `max_width` produced by
the grow/shrink update on the current label (the value used to right-pad it)
is at least the character length of that label, so the padded label is never
narrower than the label itself. -/
theorem padding_width_invariant :
    ∀ (st : WidthState) (t : String),
      (mkLabel t).length ≤
        (widthUpdate st (mkLabel t).utf8ByteSize).max_width ∧
      (mkLabel t).length ≤
        (padLabel (mkLabel t)
          (widthUpdate st (mkLabel t).utf8ByteSize).max_width).length := by
  intro st t
  constructor
  · exact Nat.le_trans (length_le_utf8ByteSize (mkLabel t))
      (le_widthUpdate_max_width st (mkLabel t).utf8ByteSize)
  · exact le_padLabel_length (mkLabel t) _

/-- C6.  Multi-line re-indentation: the written message is exactly the
original message split at its line breaks and re-joined with a line break,
the level tag painted with the level color as background and white as
foreground, and a single space (so no content is lost or merged); in
particular a message consisting of two newline-free pieces around one line
break renders as two lines, the second prefixed by the painted tag and a
space. -/
theorem multiline_reindent :
    ∀ (c : Color) (lev msg : String),
      formatMessage c lev msg =
        String.mk (joinSep ("\n" ++ paint (contStyle c) lev ++ " ").data
          (splitNL msg.data)) ∧
      (contStyle c).background = some c ∧
      (contStyle c).foreground = some Color.White ∧
      ∀ m1 m2 : List Char, '\n' ∉ m1 → '\n' ∉ m2 →
        formatMessage c lev (String.mk (m1 ++ '\n' :: m2)) =
          String.mk m1 ++ "\n" ++ paint (contStyle c) lev ++ " " ++
            String.mk m2 := by
  intro c lev msg
  refine ⟨?_, rfl, rfl, ?_⟩
  · rw [formatMessage, replaceNL_joinSep]
  · intro m1 m2 h1 h2
    apply String.ext
    rw [formatMessage, data_mk, data_mk, replaceNL_append_nl _ _ _ h1,
      replaceNL_of_not_mem _ _ h2]
    simp [String.data_append]

/-- Witness for C6: the two-line message `"line1\nline2"` at level color
green. -/
theorem multiline_reindent_witness :
    ¬ '\n' ∈ "line1".data ∧ ¬ '\n' ∈ "line2".data ∧
      formatMessage Color.Green " 😋 I "
          (String.mk ("line1".data ++ '\n' :: "line2".data)) =
        String.mk "line1".data ++ "\n" ++
          paint (contStyle Color.Green) " 😋 I " ++ " " ++
          String.mk "line2".data :=
  ⟨by decide, by decide,
    (multiline_reindent Color.Green " 😋 I " "").2.2.2 "line1".data
      "line2".data (by decide) (by decide)⟩

/-- C8.  Error propagation: the value returned by the format closure is
exactly the result of the single sink write of the rendered line (neither
swallowed nor transformed), it is an error exactly when that write errors,
and with a sink that always succeeds no record — any level, empty target,
empty message, arbitrary content — makes the closure fail. -/
theorem error_propagation :
    ∀ (ε : Type) (sink : String → Except ε Unit) (st : WidthState)
      (elapsed : String) (r : Record),
      (render ε sink st elapsed r).2 = sink (renderLine st elapsed r).1 ∧
      (∀ e : ε, (render ε sink st elapsed r).2 = Except.error e ↔
        sink (renderLine st elapsed r).1 = Except.error e) ∧
      ((∀ line : String, sink line = Except.ok ()) →
        (render ε sink st elapsed r).2 = Except.ok ()) :=
  fun _ _ _ _ _ => ⟨rfl, fun _ => Iff.rfl, fun h => h _⟩

/-- Witness for C8: an always-succeeding sink on a record with empty target
and empty message returns success. -/
theorem error_propagation_witness :
    (∀ line : String,
      (fun _ : String => (Except.ok () : Except Unit Unit)) line =
        Except.ok ()) ∧
      (render Unit (fun _ => Except.ok ()) initWidthState "0.00"
        ⟨Level.Info, "", ""⟩).2 = Except.ok () :=
  ⟨fun _ => rfl,
    (error_propagation Unit (fun _ => Except.ok ()) initWidthState "0.00"
      ⟨Level.Info, "", ""⟩).2.2 (fun _ => rfl)⟩

/-- C10.  State mutated even on write failure: the width state left by a call
of the format closure does not depend on the sink at all — two runs on the
same record with different sinks (one may fail, one succeed) leave the same
state, namely the grow/shrink update applied to the byte length of the
derived label; there is no rollback on a write error. -/
theorem state_update_before_write :
    ∀ (ε₁ ε₂ : Type) (sink₁ : String → Except ε₁ Unit)
      (sink₂ : String → Except ε₂ Unit) (st : WidthState) (elapsed : String)
      (r : Record),
      (render ε₁ sink₁ st elapsed r).1 = (render ε₂ sink₂ st elapsed r).1 ∧
      (render ε₁ sink₁ st elapsed r).1 =
        widthUpdate st (mkLabel r.target).utf8ByteSize :=
  fun _ _ _ _ _ _ _ => ⟨rfl, rfl⟩

end EmojiLogger
